import Mathlib

/-!
Shallow embedding of `src/JiraOAuth3LO.py` (class `JiraOAuth3LO`).

Python runtime values (parsed JSON, dict payloads, token records) are modelled
by the inductive `Jira.Json`; Python `None` is `Json.null`.  Machine state
(the redis token cache and the lazily resolved `cloud_id` attribute) is an
explicit `ClientState`; the network is an oracle `Env` mapping each outbound
request to its response, and every operation returns the list of network
calls it performed so that call-count properties can be stated.  Wall-clock
`time()` is an explicit integer parameter `now`.  Python exceptions are
modelled with `Except`: the generic message-wrapping re-raises of the source
(`raise Exception(f"Failed to ...: e")`) become `Failure.wrap`, which keeps
the originating error kind and prepends the context message.
-/

namespace Jira

mutual
inductive Json where
  | null : Json
  | bool (b : Bool) : Json
  | num (n : Int) : Json
  | str (s : String) : Json
  | arr (xs : JList) : Json
  | obj (fs : JFields) : Json

inductive JList where
  | nil : JList
  | cons (hd : Json) (tl : JList) : JList

inductive JFields where
  | nil : JFields
  | cons (k : String) (v : Json) (tl : JFields) : JFields
end

deriving instance DecidableEq for Json
deriving instance DecidableEq for JList
deriving instance DecidableEq for JFields

/-- First-match association lookup, the model of Python `dict[k]` access on a
parsed-JSON object (parsed objects have unique keys). -/
def JFields.lookup : JFields → String → Option Json
  | .nil, _ => none
  | .cons k v tl, key => if k = key then some v else tl.lookup key

/-- Model of Python `k in d` for a dict. -/
def JFields.hasKey (fs : JFields) (k : String) : Bool :=
  (fs.lookup k).isSome

/-- Model of Python `d.get(k, default)`. -/
def jsonGetD (fs : JFields) (k : String) (d : Json) : Json :=
  (fs.lookup k).getD d

/-- Model of Python dict assignment `d[k] = v`: replace in place if the key is
present, else append. -/
def JFields.insert : JFields → String → Json → JFields
  | .nil, k, v => .cons k v .nil
  | .cons k2 v2 tl, k, v =>
      if k2 = k then .cons k2 v tl else .cons k2 v2 (tl.insert k v)

/-- Python truthiness of a JSON-shaped value: `None`, `False`, `0`, `""`, `[]`
and the empty dict are falsy, everything else truthy. -/
def jsonTruthy : Json → Bool
  | .null => false
  | .bool b => b
  | .num n => n != 0
  | .str s => s != ""
  | .arr .nil => false
  | .arr (.cons _ _) => true
  | .obj .nil => false
  | .obj (.cons _ _ _) => true

/-- Numeric view used by Python comparison operators: ints compare as ints and
bools as 0/1; comparing anything else with a number raises TypeError, which
this model signals with `none`. -/
def jsonAsNum : Json → Option Int
  | .num n => some n
  | .bool b => some (if b then 1 else 0)
  | _ => none

/-- Model of Python `int(x)`: ints and bools convert, numeric strings parse,
anything else raises (signalled with `none`). -/
def pyToInt : Json → Option Int
  | .num n => some n
  | .bool b => some (if b then 1 else 0)
  | .str s => s.toInt?
  | _ => none

/-- Conversion helper for building `JList` literals from Lean lists. -/
def JList.ofList : List Json → JList
  | [] => .nil
  | x :: xs => .cons x (JList.ofList xs)

/-- Conversion helper for building `JFields` literals from Lean lists. -/
def JFields.ofList : List (String × Json) → JFields
  | [] => .nil
  | (k, v) :: xs => .cons k v (JFields.ofList xs)

/-! ## Token cache and client state

The redis value under the fixed key `jira_oauth_token` either is absent, is a
string that does not parse as JSON (`blob`), or is the serialization of a
JSON value (`stored`, which round-trips through `json.loads`).  A failing
`redis_client.get` (connection error) is the `err` case of `CacheRead`. -/

inductive CacheContent where
  | blob (s : String) : CacheContent
  | stored (j : Json) : CacheContent
deriving DecidableEq

inductive CacheRead where
  | err (msg : String) : CacheRead
  | missing : CacheRead
  | found (c : CacheContent) : CacheRead
deriving DecidableEq

/-- Mutable per-instance state of a `JiraOAuth3LO` object: the external token
cache and the lazily created `cloud_id` attribute (`none` models the attribute
not existing, so `hasattr` is `Option.isSome`). -/
structure ClientState where
  cache : CacheRead
  cloud_id : Option Json
deriving DecidableEq

/-- Error kinds behind the generic `Exception` messages of the source:
`httpError` for transport errors and `raise_for_status` (and JSON decode
errors, which in `requests` are `RequestException`s too); `noRefreshToken`
for the explicit "No refresh token available." raise; `keyError` for a dict
subscript on a missing key; `pyError` for TypeError/AttributeError raised by
operations on unexpectedly shaped values; `noCloudId` for the explicit
"Could not determine Jira cloud_id." raise; `notImplemented` for
`NotImplementedError`; `cacheWriteError` for redis write failures. -/
inductive FailKind where
  | httpError (msg : String) : FailKind
  | noRefreshToken : FailKind
  | keyError (k : String) : FailKind
  | pyError (msg : String) : FailKind
  | noCloudId : FailKind
  | notImplemented : FailKind
  | cacheWriteError (msg : String) : FailKind
deriving DecidableEq

/-- An exception as it propagates: the originating kind plus the context
messages prepended by each `raise Exception(f"context: e")` re-raise,
outermost first. -/
structure Failure where
  kind : FailKind
  contexts : List String
deriving DecidableEq

def Failure.wrap (ctx : String) (f : Failure) : Failure :=
  ⟨f.kind, ctx :: f.contexts⟩

/-- An HTTP response that arrived: its status code and its parsed JSON body
(`none` when `response.json()` raises a decode error). -/
structure HttpResp where
  status : Nat
  body : Option Json
deriving DecidableEq

/-- One outbound network request, recorded so that call-count properties can
be stated.  REST events carry the tenant id from the request URL and the
request-identifying parameters. -/
inductive NetCall where
  | tokenPost (grantType : String) (cred : Json) : NetCall
  | resourcesGet (bearer : Json) : NetCall
  | issueCreate (cloudId : Json) (payload : Json) : NetCall
  | issueUpdate (cloudId : Json) (ticketId : String) (payload : Json) : NetCall
  | issueDelete (cloudId : Json) (ticketId : String) : NetCall
  | issueSearch (cloudId : Json) (jql : String) : NetCall
deriving DecidableEq

/-- The network oracle: what each endpoint answers, keyed by the parts of the
request that vary (client credentials are fixed per instance and omitted).
`Except.error` is a transport failure (`requests.RequestException` with no
response). -/
structure Env where
  codeResp : String → Except String HttpResp
  refreshResp : Json → Except String HttpResp
  resourcesResp : Json → Except String HttpResp
  createResp : Json → Json → Except String HttpResp
  updateResp : String → Json → Except String HttpResp
  deleteResp : String → Except String HttpResp
  searchResp : String → Except String HttpResp

/-- Condition under which `response.raise_for_status()` raises: client or
server error statuses. -/
def raisesForStatus (s : Nat) : Bool :=
  decide (400 ≤ s) && decide (s < 600)

/-- Model of `load_token` (lines 87-103): fetch the cached string, parse it,
and return the record only when its `expires_at` (default 0) is strictly in
the future; every exception (redis read failure, JSON parse failure, `.get`
on a non-dict, comparison with a non-number) is caught and turned into
`None`. -/
def load_token : CacheRead → Int → Option Json
  | .err _, _ => none
  | .missing, _ => none
  | .found (.blob _), _ => none
  | .found (.stored j), now =>
      match j with
      | .obj fs =>
          match jsonAsNum (jsonGetD fs "expires_at" (.num 0)) with
          | some n => if now < n then some (.obj fs) else none
          | none => none
      | _ => none

/-- Model of `cache_token_to_redis` (lines 105-116): set
`token["expires_at"] = int(time()) + int(expiry)` and write the record with
redis expiry `ex=expiry`.  `int()` on a non-numeric value and item assignment
on a non-dict raise and are re-raised with context; redis rejects a
non-integer or non-positive `ex`.  Returns the mutated record and the new
state. -/
def cache_token_to_redis (st : ClientState) (token : Json) (expiry : Json)
    (now : Int) : Except Failure (Json × ClientState) :=
  match pyToInt expiry with
  | none => .error ⟨.pyError "int conversion of expiry failed",
      ["Failed to cache token to Redis"]⟩
  | some e =>
      match token with
      | .obj fs =>
          let fs2 := fs.insert "expires_at" (.num (now + e))
          match expiry with
          | .str _ => .error ⟨.cacheWriteError "redis expire must be an int",
              ["Failed to cache token to Redis"]⟩
          | _ =>
              if e ≤ 0 then
                .error ⟨.cacheWriteError "invalid expire time",
                  ["Failed to cache token to Redis"]⟩
              else
                .ok (.obj fs2, { st with cache := .found (.stored (.obj fs2)) })
      | _ => .error ⟨.pyError "item assignment on non-dict token",
          ["Failed to cache token to Redis"]⟩

/-- Model of `call_token_api` (lines 21-40): one POST with grant type
`authorization_code`; any `RequestException` (transport, `raise_for_status`,
JSON decode) is wrapped as "Failed to exchange code for token". -/
def call_token_api (env : Env) (code : String) :
    Except Failure Json × List NetCall :=
  let calls := [NetCall.tokenPost "authorization_code" (.str code)]
  match env.codeResp code with
  | .error m => (.error ⟨.httpError m, ["Failed to exchange code for token"]⟩, calls)
  | .ok r =>
      if raisesForStatus r.status then
        (.error ⟨.httpError "HTTPError", ["Failed to exchange code for token"]⟩, calls)
      else
        match r.body with
        | none => (.error ⟨.httpError "JSONDecodeError",
            ["Failed to exchange code for token"]⟩, calls)
        | some j => (.ok j, calls)

/-- Model of `refresh_token` (lines 62-85): reload the cache through
`load_token` (which already rejects expired records); raise
"No refresh token available." when that misses or the record has no
`refresh_token` key (the `not token_data` half of the guard is subsumed:
a record containing the key is a non-empty dict, hence truthy); otherwise one
POST with grant type `refresh_token`, persist, and return the (mutated)
response.  Every exception is re-raised as "Failed to refresh token". -/
def refresh_token (env : Env) (st : ClientState) (now : Int) :
    Except Failure Json × ClientState × List NetCall :=
  match load_token st.cache now with
  | none => (.error ⟨.noRefreshToken, ["Failed to refresh token"]⟩, st, [])
  | some td =>
      match td with
      | .obj fs =>
          match fs.lookup "refresh_token" with
          | none => (.error ⟨.noRefreshToken, ["Failed to refresh token"]⟩, st, [])
          | some rt =>
              let calls := [NetCall.tokenPost "refresh_token" rt]
              match env.refreshResp rt with
              | .error m => (.error ⟨.httpError m, ["Failed to refresh token"]⟩, st, calls)
              | .ok r =>
                  if raisesForStatus r.status then
                    (.error ⟨.httpError "HTTPError", ["Failed to refresh token"]⟩, st, calls)
                  else
                    match r.body with
                    | none => (.error ⟨.httpError "JSONDecodeError",
                        ["Failed to refresh token"]⟩, st, calls)
                    | some tok =>
                        match tok with
                        | .obj tfs =>
                            match cache_token_to_redis st (.obj tfs)
                                (jsonGetD tfs "expires_in" (.num 3600)) now with
                            | .error f => (.error (f.wrap "Failed to refresh token"), st, calls)
                            | .ok (tok2, st2) => (.ok tok2, st2, calls)
                        | _ => (.error ⟨.pyError "get on non-dict response",
                            ["Failed to refresh token"]⟩, st, calls)
      | _ =>
          -- unreachable: load_token only returns dicts; Python would raise a
          -- TypeError on the membership test here
          (.error ⟨.pyError "membership test on non-dict", ["Failed to refresh token"]⟩, st, [])

/-- Code-exchange arm of `get_token` (lines 128-131): exchange the code,
persist with the reported lifetime (default 3600), return
`token_response["access_token"]`; errors re-raised as "Failed to get
token". -/
def get_token_exchange (env : Env) (st : ClientState) (now : Int) (c : String) :
    Except Failure Json × ClientState × List NetCall :=
  match call_token_api env c with
  | (.error f, calls) => (.error (f.wrap "Failed to get token"), st, calls)
  | (.ok tok, calls) =>
      match tok with
      | .obj tfs =>
          match cache_token_to_redis st (.obj tfs)
              (jsonGetD tfs "expires_in" (.num 3600)) now with
          | .error f => (.error (f.wrap "Failed to get token"), st, calls)
          | .ok (tok2, st2) =>
              match tok2 with
              | .obj t2 =>
                  match t2.lookup "access_token" with
                  | some at2 => (.ok at2, st2, calls)
                  | none => (.error ⟨.keyError "access_token",
                      ["Failed to get token"]⟩, st2, calls)
              | _ => (.error ⟨.pyError "subscript on non-dict",
                  ["Failed to get token"]⟩, st2, calls)
      | _ => (.error ⟨.pyError "get on non-dict response",
          ["Failed to get token"]⟩, st, calls)

/-- Refresh arm of `get_token` (lines 132-134): delegate to `refresh_token`
and return `token_response["access_token"]`; errors re-raised as "Failed to
get token". -/
def get_token_refresh (env : Env) (st : ClientState) (now : Int) :
    Except Failure Json × ClientState × List NetCall :=
  match refresh_token env st now with
  | (.error f, st2, calls) => (.error (f.wrap "Failed to get token"), st2, calls)
  | (.ok tok, st2, calls) =>
      match tok with
      | .obj tfs =>
          match tfs.lookup "access_token" with
          | some at2 => (.ok at2, st2, calls)
          | none => (.error ⟨.keyError "access_token", ["Failed to get token"]⟩, st2, calls)
      | _ => (.error ⟨.pyError "subscript on non-dict", ["Failed to get token"]⟩, st2, calls)

/-- Cache-miss continuation of `get_token`: `elif code:` (an empty string is
falsy and falls through to the refresh arm, like `None`). -/
def get_token_miss (env : Env) (st : ClientState) (now : Int) (code : Option String) :
    Except Failure Json × ClientState × List NetCall :=
  match code with
  | some c => if c = "" then get_token_refresh env st now else get_token_exchange env st now c
  | none => get_token_refresh env st now

/-- Model of `get_token` (lines 118-137): return the cached access token when
`load_token` yields a truthy record; otherwise exchange the supplied code or
fall back to the refresh arm. -/
def get_token (env : Env) (st : ClientState) (now : Int) (code : Option String) :
    Except Failure Json × ClientState × List NetCall :=
  match load_token st.cache now with
  | some td =>
      if jsonTruthy td then
        match td with
        | .obj fs =>
            match fs.lookup "access_token" with
            | some at2 => (.ok at2, st, [])
            | none => (.error ⟨.keyError "access_token", ["Failed to get token"]⟩, st, [])
        | _ => (.error ⟨.pyError "subscript on non-dict", ["Failed to get token"]⟩, st, [])
      else get_token_miss env st now code
  | none => get_token_miss env st now code

/-- Element test of Python `in` on a list: `==` against each element (a
string compares equal only to an equal string). -/
def JList.containsStr : JList → String → Bool
  | .nil, _ => false
  | .cons x tl, k => (x == .str k) || JList.containsStr tl k

/-- Model of Python `"id" in x`: key test on dicts, element equality on lists,
substring test on strings; TypeError otherwise. -/
def pyInId : Json → Except String Bool
  | .obj fs => .ok (fs.hasKey "id")
  | .arr xs => .ok (xs.containsStr "id")
  | .str s => .ok (decide ("id".data <:+: s.data))
  | _ => .error "TypeError: argument of this type is not iterable"

/-- Model of the guard `resources and isinstance(resources, list) and
"id" in resources[0]` (lines 55 and 157 etc.) together with the subsequent
`resources[0]["id"]` access: `.ok (some v)` when the guard holds and the id
value is `v`; `.ok none` when the guard is false; `.error` when evaluating it
raises (membership test or string-keyed indexing on a non-dict first
entry). -/
def check_first_id (resources : Json) : Except String (Option Json) :=
  if jsonTruthy resources then
    match resources with
    | .arr (.cons first _) =>
        match pyInId first with
        | .error m => .error m
        | .ok true =>
            match first with
            | .obj ffs =>
                match ffs.lookup "id" with
                | some v => .ok (some v)
                | none => .ok none
            | _ => .error "TypeError: indices must be integers"
        | .ok false => .ok none
    | _ => .ok none
  else .ok none

/-- Model of `get_accessible_resources` (lines 42-60): one discovery GET; when
the response is a non-empty list whose first entry carries an `id`, store it
as `cloud_id`; return the raw resources list.  Only `RequestException`s are
wrapped as "Failed to get accessible resources"; a TypeError from the guard
escapes unwrapped. -/
def get_accessible_resources (env : Env) (st : ClientState) (access_token : Json) :
    Except Failure Json × ClientState × List NetCall :=
  let calls := [NetCall.resourcesGet access_token]
  match env.resourcesResp access_token with
  | .error m => (.error ⟨.httpError m, ["Failed to get accessible resources"]⟩, st, calls)
  | .ok r =>
      if raisesForStatus r.status then
        (.error ⟨.httpError "HTTPError", ["Failed to get accessible resources"]⟩, st, calls)
      else
        match r.body with
        | none => (.error ⟨.httpError "JSONDecodeError",
            ["Failed to get accessible resources"]⟩, st, calls)
        | some resources =>
            match check_first_id resources with
            | .error m => (.error ⟨.pyError m, []⟩, st, calls)
            | .ok (some idv) => (.ok resources, { st with cloud_id := some idv }, calls)
            | .ok none => (.ok resources, st, calls)

/-- The preamble duplicated at the top of every resource operation (for
example lines 152-160): acquire a token with `get_token()`, then, when the
`cloud_id` attribute does not exist, resolve it through
`get_accessible_resources` and re-check the guard, raising "Could not
determine Jira cloud_id." when it fails; every exception is re-raised with
the context message `ctx` of the operation. -/
def op_preamble (env : Env) (st : ClientState) (now : Int) (ctx : String) :
    Except Failure (Json × Json) × ClientState × List NetCall :=
  match get_token env st now none with
  | (.error f, st1, calls) => (.error (f.wrap ctx), st1, calls)
  | (.ok tok, st1, calls) =>
      match st1.cloud_id with
      | some cid => (.ok (tok, cid), st1, calls)
      | none =>
          match get_accessible_resources env st1 tok with
          | (.error f, st2, calls2) => (.error (f.wrap ctx), st2, calls ++ calls2)
          | (.ok resources, st2, calls2) =>
              match check_first_id resources with
              | .error m => (.error ⟨.pyError m, [ctx]⟩, st2, calls ++ calls2)
              | .ok (some idv) =>
                  (.ok (tok, idv), { st2 with cloud_id := some idv }, calls ++ calls2)
              | .ok none => (.error ⟨.noCloudId, [ctx]⟩, st2, calls ++ calls2)

/-- Model of `create_ticket` (lines 139-174): preamble, then one POST to the
issue endpoint; non-2xx statuses raise (a 400 additionally prints the body),
and the parsed response body is returned. -/
def create_ticket (env : Env) (st : ClientState) (now : Int) (data : Json) :
    Except Failure Json × ClientState × List NetCall :=
  match op_preamble env st now "Failed to create Jira ticket" with
  | (.error f, st1, calls) => (.error f, st1, calls)
  | (.ok (_, cid), st1, calls) =>
      let calls2 := calls ++ [NetCall.issueCreate cid data]
      match env.createResp cid data with
      | .error m => (.error ⟨.httpError m, ["Failed to create Jira ticket"]⟩, st1, calls2)
      | .ok r =>
          if raisesForStatus r.status then
            (.error ⟨.httpError "HTTPError", ["Failed to create Jira ticket"]⟩, st1, calls2)
          else
            match r.body with
            | none => (.error ⟨.httpError "JSONDecodeError",
                ["Failed to create Jira ticket"]⟩, st1, calls2)
            | some j => (.ok j, st1, calls2)

/-- Model of `update_ticket` (lines 176-200): preamble, one PUT,
`raise_for_status`, then return `status_code == 204`. -/
def update_ticket (env : Env) (st : ClientState) (now : Int)
    (ticket_id : String) (data : Json) :
    Except Failure Bool × ClientState × List NetCall :=
  match op_preamble env st now "Failed to update Jira ticket" with
  | (.error f, st1, calls) => (.error f, st1, calls)
  | (.ok (_, cid), st1, calls) =>
      let calls2 := calls ++ [NetCall.issueUpdate cid ticket_id data]
      match env.updateResp ticket_id data with
      | .error m => (.error ⟨.httpError m, ["Failed to update Jira ticket"]⟩, st1, calls2)
      | .ok r =>
          if raisesForStatus r.status then
            (.error ⟨.httpError "HTTPError", ["Failed to update Jira ticket"]⟩, st1, calls2)
          else (.ok (decide (r.status = 204)), st1, calls2)

/-- Model of `delete_ticket` (lines 202-224): preamble, one DELETE,
`raise_for_status`, then return `status_code == 204`. -/
def delete_ticket (env : Env) (st : ClientState) (now : Int) (ticket_id : String) :
    Except Failure Bool × ClientState × List NetCall :=
  match op_preamble env st now "Failed to delete Jira ticket" with
  | (.error f, st1, calls) => (.error f, st1, calls)
  | (.ok (_, cid), st1, calls) =>
      let calls2 := calls ++ [NetCall.issueDelete cid ticket_id]
      match env.deleteResp ticket_id with
      | .error m => (.error ⟨.httpError m, ["Failed to delete Jira ticket"]⟩, st1, calls2)
      | .ok r =>
          if raisesForStatus r.status then
            (.error ⟨.httpError "HTTPError", ["Failed to delete Jira ticket"]⟩, st1, calls2)
          else (.ok (decide (r.status = 204)), st1, calls2)

/-- Model of `list_tickets` (lines 250-276): preamble; when no JQL is given,
default to the query string `project=` followed by the project key; one GET
on the search endpoint; return `response.json().get("issues", [])`. -/
def list_tickets (env : Env) (st : ClientState) (now : Int)
    (project_key : String) (jql : Option String) :
    Except Failure Json × ClientState × List NetCall :=
  match op_preamble env st now "Failed to list Jira tickets" with
  | (.error f, st1, calls) => (.error f, st1, calls)
  | (.ok (_, cid), st1, calls) =>
      let q := match jql with
               | none => "project=" ++ project_key
               | some s => s
      let calls2 := calls ++ [NetCall.issueSearch cid q]
      match env.searchResp q with
      | .error m => (.error ⟨.httpError m, ["Failed to list Jira tickets"]⟩, st1, calls2)
      | .ok r =>
          if raisesForStatus r.status then
            (.error ⟨.httpError "HTTPError", ["Failed to list Jira tickets"]⟩, st1, calls2)
          else
            match r.body with
            | none => (.error ⟨.httpError "JSONDecodeError",
                ["Failed to list Jira tickets"]⟩, st1, calls2)
            | some (.obj bfs) => (.ok (jsonGetD bfs "issues" (.arr .nil)), st1, calls2)
            | some _ => (.error ⟨.pyError "get on non-dict response",
                ["Failed to list Jira tickets"]⟩, st1, calls2)

/-- Model of `react_to_comment` (lines 426-431): unconditionally raise
`NotImplementedError`, with no network call and no try/except wrapping. -/
def react_to_comment (comment_id reaction : Json) : Except Failure Json × List NetCall :=
  (.error ⟨.notImplemented, []⟩, [])

/-! ## Mention extraction (`extract_user_data`, lines 303-355) -/

/-- The character class of the source regex `@([\w.\-]+)` (line 342): word
characters (modelled over ASCII: letters, digits, underscore), dot, hyphen. -/
def isHandleChar (c : Char) : Bool :=
  c.isAlphanum || c == '_' || c == '.' || c == '-'

/-- Model of `re.findall(r"@([\w.\-]+)", text)` over the character list of the
text: scan left to right; at an `@` followed by at least one handle
character, the greedy `+` captures the maximal run of handle characters, and
scanning resumes after it; other characters are skipped. -/
def findMentionsAux : List Char → List (List Char)
  | [] => []
  | c :: cs =>
      if c = '@' then
        match cs.takeWhile isHandleChar with
        | [] => findMentionsAux cs
        | a :: as2 => (a :: as2) :: findMentionsAux (cs.dropWhile isHandleChar)
      else findMentionsAux cs
termination_by l => l.length
decreasing_by
  · simp
  · simp only [List.length_cons]
    exact Nat.lt_succ_of_le (List.dropWhile_suffix isHandleChar).sublist.length_le
  · simp

/-- The captured handles (without the leading `@`) found in a plain-text
value. -/
def findMentions (s : String) : List String :=
  (findMentionsAux s.data).map (fun l => ⟨l⟩)

/-- Mention contribution of one plain-text value, as the set of Python
strings added to the mentions set. -/
def text_mentions (s : String) : Finset Json :=
  ((findMentions s).map Json.str).toFinset

mutual
/-- Model of the nested function `extract_mentions_adf` (lines 328-339): walk
an arbitrary parsed-JSON value; on a dict whose `type` is `"mention"` and
which has an `attrs` key, add `attrs.get("text")` (which is `None`, that is
`Json.null`, when the key is absent; `.get` on a non-dict `attrs` raises);
recurse into every dict and list value. -/
def extract_mentions_adf : Json → Except String (Finset Json)
  | .obj fs => do
      let here ←
        if jsonGetD fs "type" .null == .str "mention" && fs.hasKey "attrs" then
          match fs.lookup "attrs" with
          | some (.obj afs) => pure ({jsonGetD afs "text" .null} : Finset Json)
          | some _ => throw "AttributeError: attrs value has no attribute get"
          | none => pure (∅ : Finset Json)
        else pure (∅ : Finset Json)
      let rest ← adf_fields_walk fs
      pure (here ∪ rest)
  | .arr xs => adf_list_walk xs
  | _ => pure (∅ : Finset Json)

/-- The `for v in adf.values()` loop: recurse into dict and list values only
(scalars are skipped), accumulating the union. -/
def adf_fields_walk : JFields → Except String (Finset Json)
  | .nil => pure (∅ : Finset Json)
  | .cons _ v tl => do
      let mv ←
        match v with
        | .obj fs2 => extract_mentions_adf (.obj fs2)
        | .arr xs2 => extract_mentions_adf (.arr xs2)
        | _ => pure (∅ : Finset Json)
      let mt ← adf_fields_walk tl
      pure (mv ∪ mt)

/-- The list branch of the walk: recurse into every item. -/
def adf_list_walk : JList → Except String (Finset Json)
  | .nil => pure (∅ : Finset Json)
  | .cons x tl => do
      let mx ← extract_mentions_adf x
      let mt ← adf_list_walk tl
      pure (mx ∪ mt)
end

/-- Python truthiness-based `a or b` as used on lines 318 and 322. -/
def pyOr (a b : Json) : Json :=
  if jsonTruthy a then a else b

/-- The assignee/reporter pattern (lines 316-322): when the person value is
truthy, take `displayName` falling back to `name` (both through `.get`, so a
truthy non-dict raises); a falsy value leaves the field `None`. -/
def person_field (v : Json) : Except String Json :=
  if jsonTruthy v then
    match v with
    | .obj fs => .ok (pyOr (jsonGetD fs "displayName" .null) (jsonGetD fs "name" .null))
    | _ => .error "AttributeError: person value has no attribute get"
  else .ok .null

/-- Description branch (lines 324-342): a dict with a `content` key is walked
as a structured document; a string is scanned with the regex; anything else
contributes nothing. -/
def desc_mentions (description : Json) : Except String (Finset Json) :=
  match description with
  | .obj fs =>
      if fs.hasKey "content" then extract_mentions_adf (.obj fs)
      else .ok (∅ : Finset Json)
  | .str s => .ok (text_mentions s)
  | _ => .ok (∅ : Finset Json)

/-- Comment-body branch (lines 346-350): any dict is walked as a structured
document (no `content` check here); a string is scanned with the regex;
anything else contributes nothing. -/
def body_mentions (body : Json) : Except String (Finset Json) :=
  match body with
  | .obj fs => extract_mentions_adf (.obj fs)
  | .str s => .ok (text_mentions s)
  | _ => .ok (∅ : Finset Json)

/-- Model of `fields.get("comment", {}).get("comments", [])` (line 344). -/
def comments_val (fields : JFields) : Except String Json :=
  match jsonGetD fields "comment" (.obj .nil) with
  | .obj cfs => .ok (jsonGetD cfs "comments" (.arr .nil))
  | _ => .error "AttributeError: comment value has no attribute get"

/-- Iterating `for comment in comments`: a list yields its items; an empty
dict or empty string iterates zero times; a non-empty dict or string yields
keys or characters on which the subsequent `.get` raises, and a scalar is
not iterable at all. -/
def comments_iter : Json → Except String JList
  | .arr items => .ok items
  | .obj .nil => .ok .nil
  | .str "" => .ok .nil
  | _ => .error "TypeError: comments value does not iterate over dicts"

/-- The comment loop (lines 345-350): each comment must be a dict; its `body`
(default `""`) contributes `body_mentions`. -/
def comment_loop : JList → Except String (Finset Json)
  | .nil => pure (∅ : Finset Json)
  | .cons c tl => do
      let m ←
        match c with
        | .obj cfs => body_mentions (jsonGetD cfs "body" (.str ""))
        | _ => throw "AttributeError: comment has no attribute get"
      let r ← comment_loop tl
      pure (m ∪ r)

/-- Result of `extract_user_data`: Python `None` values are `Json.null`, and
the final `list(set)` conversion exposes the de-duplicated mention set
without an ordering guarantee, which the `Finset` captures. -/
structure ExtractResult where
  assignee : Json
  reporter : Json
  mentions : Finset Json
deriving DecidableEq

/-- Body of `extract_user_data` before its try/except wrapper. -/
def extract_user_data_inner (ticket : Json) : Except String ExtractResult :=
  match ticket with
  | .obj tfs =>
      match jsonGetD tfs "fields" (.obj .nil) with
      | .obj ffs => do
          let a ← person_field (jsonGetD ffs "assignee" .null)
          let r ← person_field (jsonGetD ffs "reporter" .null)
          let dm ← desc_mentions (jsonGetD ffs "description" (.str ""))
          let cv ← comments_val ffs
          let items ← comments_iter cv
          let cm ← comment_loop items
          pure ⟨a, r, dm ∪ cm⟩
      | _ => .error "AttributeError: fields value has no attribute get"
  | _ => .error "AttributeError: ticket has no attribute get"

/-- Model of `extract_user_data` (lines 303-355): every exception is caught
and re-raised as "Failed to extract user data". -/
def extract_user_data (ticket : Json) : Except Failure ExtractResult :=
  match extract_user_data_inner ticket with
  | .ok r => .ok r
  | .error m => .error ⟨.pyError m, ["Failed to extract user data"]⟩

/-! ## Specification-side definition for the plain-text mention property

The spec says: "extract every substring matching the pattern `@` followed by
one or more word characters, dots, or hyphens, and take the captured handle
(without the leading `@`)".  The declarative reading of one extracted handle
`h` from text `s`: `h` is non-empty, consists of handle characters only, and
occurs in `s` immediately after an `@`, with the greedy capture maximal on
the right (the following character, if any, is not a handle character). -/
def spec_mention_occurrence (s h : String) : Prop :=
  h.data ≠ [] ∧ (∀ c ∈ h.data, isHandleChar c = true) ∧
  ∃ pre suf, s.data = pre ++ '@' :: (h.data ++ suf) ∧
    ∀ c, suf.head? = some c → isHandleChar c = false

/-! ## Concrete payload builders and fixtures -/

/-- A comment object whose body is plain text. -/
def mkComment (b : String) : Json :=
  .obj (.cons "body" (.str b) .nil)

/-- An issue payload whose description and every comment body are plain
text, with no assignee or reporter. -/
def mkPlainTicket (d : String) (bodies : List String) : Json :=
  .obj (.cons "fields" (.obj (
    .cons "description" (.str d) (
    .cons "comment" (.obj (.cons "comments"
      (.arr (JList.ofList (bodies.map mkComment))) .nil)) .nil))) .nil)

/-- Network oracle in which every endpoint fails with a transport error, the
base for fixtures that override single endpoints. -/
def dead_env : Env where
  codeResp _ := .error "unreachable"
  refreshResp _ := .error "unreachable"
  resourcesResp _ := .error "unreachable"
  createResp _ _ := .error "unreachable"
  updateResp _ _ := .error "unreachable"
  deleteResp _ := .error "unreachable"
  searchResp _ := .error "unreachable"

/-- An expired cached record (at any time past 100) that still contains a
refresh token. -/
def c1_cached_record : JFields :=
  .cons "access_token" (.str "old")
    (.cons "refresh_token" (.str "rt1")
      (.cons "expires_at" (.num 100) .nil))

def c1_state : ClientState :=
  ⟨.found (.stored (.obj c1_cached_record)), none⟩

/-- A successful refresh-grant response the identity provider would give for
the cached refresh token. -/
def c1_refresh_response : HttpResp :=
  ⟨200, some (.obj (.cons "access_token" (.str "newtok")
    (.cons "refresh_token" (.str "rt2")
      (.cons "expires_in" (.num 3600) .nil))))⟩

def c1_env : Env :=
  { dead_env with refreshResp := (fun rt =>
      if rt = .str "rt1" then .ok c1_refresh_response else .error "unreachable") }

/-- Token-endpoint response for the C3 witness code exchange. -/
def c3_resp_record : JFields :=
  .cons "access_token" (.str "tok3")
    (.cons "refresh_token" (.str "r3")
      (.cons "expires_in" (.num 3600) .nil))

def c3_env : Env :=
  { dead_env with codeResp := (fun c =>
      if c = "authcode" then .ok ⟨200, some (.obj c3_resp_record)⟩
      else .error "unreachable") }

/-- A valid cached token record (valid before time 5000). -/
def valid_cache_record : JFields :=
  .cons "access_token" (.str "tok")
    (.cons "expires_at" (.num 5000) .nil)

/-- Warm state: valid cached token and resolved cloud id. -/
def warm_state : ClientState :=
  ⟨.found (.stored (.obj valid_cache_record)), some (.str "cloud1")⟩

/-- Warm cache but unresolved cloud id. -/
def warm_state_no_cloud : ClientState :=
  ⟨.found (.stored (.obj valid_cache_record)), none⟩

/-- Environment in which the issue PUT yields HTTP 304 (a non-2xx status
that `raise_for_status` does not raise on). -/
def c5_env : Env :=
  { dead_env with updateResp := fun _ _ => .ok ⟨304, none⟩ }

/-- Environment in which both the issue PUT and DELETE yield HTTP 204. -/
def c5_ok_env : Env :=
  { dead_env with
      updateResp := (fun _ _ => .ok ⟨204, none⟩)
      deleteResp := (fun _ => .ok ⟨204, none⟩) }

/-- Environment in which the search GET returns one issue for the default
query of project PROJ. -/
def c6_env : Env :=
  { dead_env with searchResp := (fun q =>
      if q = "project=PROJ" then
        .ok ⟨200, some (.obj (.cons "issues"
          (.arr (.cons (.str "PROJ-1") .nil)) .nil))⟩
      else .error "unreachable") }

/-- Discovery response whose first entry is a number: the membership test
`"id" in resources[0]` raises a TypeError. -/
def c9_bad_env : Env :=
  { dead_env with resourcesResp := fun _ => .ok ⟨200, some (.arr (.cons (.num 5) .nil))⟩ }

/-- Well-formed discovery response plus a successful issue POST. -/
def c9_good_env : Env :=
  { dead_env with
      resourcesResp := (fun _ =>
        .ok ⟨200, some (.arr (.cons (.obj (.cons "id" (.str "cloud123") .nil)) .nil))⟩)
      createResp := (fun _ _ => .ok ⟨201, some (.obj (.cons "key" (.str "PROJ-1") .nil))⟩) }

/-- Structured-document issue payload whose description contains a mention
node whose attrs lack a `text` key. -/
def c10_ticket : Json :=
  .obj (.cons "fields" (.obj (
    .cons "description" (.obj (
      .cons "type" (.str "doc") (
      .cons "content" (.arr (.cons (.obj (
        .cons "type" (.str "mention") (
        .cons "attrs" (.obj (.cons "id" (.str "user123") .nil)) .nil))) .nil)) .nil)))
    .nil)) .nil)

/-! ## Helper lemmas -/

theorem lookup_insert_self : ∀ (fs : JFields) (k : String) (v : Json),
    (fs.insert k v).lookup k = some v
  | .nil, k, v => by simp [JFields.insert, JFields.lookup]
  | .cons k2 v2 tl, k, v => by
      by_cases h : k2 = k <;>
        simp [JFields.insert, JFields.lookup, h, lookup_insert_self tl k v]

theorem lookup_insert_ne : ∀ (fs : JFields) (k k2 : String) (v : Json),
    k ≠ k2 → (fs.insert k v).lookup k2 = fs.lookup k2
  | .nil, k, k2, v, h => by simp [JFields.insert, JFields.lookup, h]
  | .cons k3 v3 tl, k, k2, v, h => by
      by_cases h2 : k3 = k <;> by_cases h3 : k3 = k2 <;>
        simp_all [JFields.insert, JFields.lookup, lookup_insert_ne tl k k2 v h]

theorem insert_ne_nil (fs : JFields) (k : String) (v : Json) :
    fs.insert k v ≠ .nil := by
  cases fs with
  | nil => simp [JFields.insert]
  | cons k2 v2 tl =>
      by_cases h : k2 = k <;> simp [JFields.insert, h]

theorem truthy_insert (fs : JFields) (k : String) (v : Json) :
    jsonTruthy (.obj (fs.insert k v)) = true := by
  cases h : fs.insert k v with
  | nil => exact absurd h (insert_ne_nil fs k v)
  | cons k2 v2 tl => simp [jsonTruthy]

theorem truthy_of_lookup (fs : JFields) (k : String) (v : Json)
    (h : fs.lookup k = some v) : jsonTruthy (.obj fs) = true := by
  cases fs with
  | nil => simp [JFields.lookup] at h
  | cons k2 v2 tl => simp [jsonTruthy]

/-- Cache-hit arm of `get_token`: a stored record with a future `expires_at`
and an `access_token` key is returned with no network call and no state
change, for any `code` argument. -/
theorem get_token_cached (env : Env) (cid : Option Json)
    (now : Int) (code : Option String) (fs : JFields) (at2 : Json)
    (hexp : ∃ n, jsonAsNum (jsonGetD fs "expires_at" (.num 0)) = some n ∧ now < n)
    (hat : fs.lookup "access_token" = some at2) :
    get_token env ⟨.found (.stored (.obj fs)), cid⟩ now code =
      (.ok at2, ⟨.found (.stored (.obj fs)), cid⟩, []) := by
  obtain ⟨n, hn, hlt⟩ := hexp
  have htr : jsonTruthy (.obj fs) = true := truthy_of_lookup fs "access_token" at2 hat
  simp [get_token, load_token, hn, hlt, htr, hat]

/-- The shared resource-operation preamble on a warm state (valid cached
token, resolved cloud id): it yields the token and cloud id with no network
call and no state change. -/
theorem op_preamble_warm (env : Env) (fs : JFields) (cid at2 : Json)
    (now : Int) (ctx : String)
    (hexp : ∃ n, jsonAsNum (jsonGetD fs "expires_at" (.num 0)) = some n ∧ now < n)
    (hat : fs.lookup "access_token" = some at2) :
    op_preamble env ⟨.found (.stored (.obj fs)), some cid⟩ now ctx =
      (.ok (at2, cid), ⟨.found (.stored (.obj fs)), some cid⟩, []) := by
  have h := get_token_cached env (some cid) now none fs at2 hexp hat
  simp [op_preamble, h]

/-! ## Claim theorems -/

/-- C8: for every argument pair, `react_to_comment` always fails with the
unsupported-operation (NotImplementedError) condition and performs no
network call, so the operation is never attempted. -/
theorem c8_react_to_comment_unsupported (comment_id reaction : Json) :
    react_to_comment comment_id reaction = (.error ⟨.notImplemented, []⟩, []) :=
  rfl

/-- C4: `get_token()` with no cached record, no authorization code, and hence
no recoverable refresh token fails with the "no refresh token available"
condition and performs zero token-endpoint calls, for every environment,
cloud id, and time. -/
theorem c4_get_token_empty_cache_no_code (env : Env) (cid : Option Json) (now : Int) :
    get_token env ⟨.missing, cid⟩ now none =
      (.error ⟨.noRefreshToken, ["Failed to get token", "Failed to refresh token"]⟩,
       ⟨.missing, cid⟩, []) :=
  rfl

/-- C2: `load_token` returns the stored record unchanged exactly when the
cache read succeeds with a parsable (JSON-object) record whose `expires_at`
compares as a number strictly greater than the current time; in every other
situation — read failure, missing key, unparsable content, non-dict record,
non-numeric or missing-and-defaulted `expires_at`, or `expires_at <= now` —
it returns `none`, never propagating an error. -/
theorem c2_load_token_iff (cache : CacheRead) (now : Int) (r : Json) :
    load_token cache now = some r ↔
      ∃ fs, r = .obj fs ∧ cache = .found (.stored (.obj fs)) ∧
        ∃ n, jsonAsNum (jsonGetD fs "expires_at" (.num 0)) = some n ∧ now < n := by
  cases cache with
  | err m => simp [load_token]
  | missing => simp [load_token]
  | found c =>
      cases c with
      | blob s => simp [load_token]
      | stored j =>
          cases j with
          | null => simp [load_token]
          | bool b => simp [load_token]
          | num n => simp [load_token]
          | str s => simp [load_token]
          | arr xs => simp [load_token]
          | obj fs =>
              cases hn : jsonAsNum (jsonGetD fs "expires_at" (.num 0)) with
              | none =>
                  constructor
                  · intro h
                    simp [load_token, hn] at h
                  · rintro ⟨fs1, rfl, hc, m, hm, hlt2⟩
                    obtain rfl : fs = fs1 := by
                      injection hc with h1
                      injection h1 with h2
                      injection h2 with h3
                    rw [hn] at hm
                    cases hm
              | some n =>
                  by_cases hlt : now < n
                  · constructor
                    · intro h
                      have h2 : Json.obj fs = r := by
                        simpa [load_token, hn, hlt] using h
                      exact ⟨fs, h2.symm, rfl, n, hn, hlt⟩
                    · rintro ⟨fs1, rfl, hc, m, hm, hlt2⟩
                      obtain rfl : fs = fs1 := by
                        injection hc with h1
                        injection h1 with h2
                        injection h2 with h3
                      simp [load_token, hn, hlt]
                  · constructor
                    · intro h
                      simp [load_token, hn, hlt] at h
                    · rintro ⟨fs1, rfl, hc, m, hm, hlt2⟩
                      obtain rfl : fs = fs1 := by
                        injection hc with h1
                        injection h1 with h2
                        injection h2 with h3
                      rw [hn] at hm
                      cases hm
                      exact absurd hlt2 hlt

/-- C1 (counterexample): with an expired cached record that still contains a
refresh token — and an identity provider that would answer the refresh
grant — `get_token()` with no code makes zero token-endpoint calls and fails
with the no-refresh-token error, instead of performing one refresh-grant
call and returning the new access token as the claim states. -/
theorem c1_counterexample :
    JFields.lookup c1_cached_record "refresh_token" = some (.str "rt1") ∧
    load_token c1_state.cache 200 = none ∧
    c1_env.refreshResp (.str "rt1") = .ok c1_refresh_response ∧
    get_token c1_env c1_state 200 none =
      (.error ⟨.noRefreshToken, ["Failed to get token", "Failed to refresh token"]⟩,
       c1_state, []) := by
  refine ⟨rfl, rfl, ?_, rfl⟩
  simp [c1_env, dead_env]

/-- C1 (amended): whenever `get_token()` is called with no code and the cache
lookup misses (no valid, unexpired record), the refresh arm re-loads through
`load_token` — which rejects expired records — so even when the cached
(expired) record contains a refresh token, `get_token` performs zero
token-endpoint calls and fails with the "no refresh token available"
condition; a refresh token is never recovered from an expired record. -/
theorem c1_no_refresh_from_expired_record (env : Env) (cache : CacheRead)
    (cid : Option Json) (now : Int)
    (hmiss : load_token cache now = none) :
    get_token env ⟨cache, cid⟩ now none =
      (.error ⟨.noRefreshToken, ["Failed to get token", "Failed to refresh token"]⟩,
       ⟨cache, cid⟩, []) := by
  simp [get_token, get_token_miss, get_token_refresh, refresh_token, hmiss, Failure.wrap]

/-- Witness for the amended C1 at the concrete expired-record state. -/
theorem c1_no_refresh_from_expired_record_witness :
    load_token (.found (.stored (.obj c1_cached_record))) 200 = none ∧
    get_token c1_env ⟨.found (.stored (.obj c1_cached_record)), none⟩ 200 none =
      (.error ⟨.noRefreshToken, ["Failed to get token", "Failed to refresh token"]⟩,
       ⟨.found (.stored (.obj c1_cached_record)), none⟩, []) :=
  ⟨rfl, c1_no_refresh_from_expired_record c1_env (.found (.stored (.obj c1_cached_record)))
    none 200 rfl⟩

/-- C10: a structured-document description containing a mention node whose
attrs lack a `text` key makes `extract_user_data` put `None` (`Json.null`)
into the returned mentions collection, so the result is not a set of
user-handle strings. -/
theorem c10_mention_without_text_yields_null :
    ∃ r, extract_user_data c10_ticket = .ok r ∧ Json.null ∈ r.mentions ∧
      ∀ s : String, Json.null ≠ Json.str s := by
  refine ⟨⟨.null, .null, {Json.null}⟩, rfl, ?_, ?_⟩
  · decide
  · intro s h
    exact Json.noConfusion h

/-- C3: with an empty cache and a (non-empty) authorization code, `get_token`
performs exactly one code-exchange call, caches the response record with
`expires_at = now + lifetime` where the lifetime is the provider-reported
`expires_in` defaulted to 3600, and returns the new access token; a
subsequent `get_token` call (with any code argument) while that record is
still valid performs zero network calls and returns the cached access
token. -/
theorem c3_code_exchange_then_cache_hit (env : Env) (cid : Option Json)
    (now now2 : Int) (code : String) (rfs : JFields) (at2 : Json) (e : Int)
    (code2 : Option String) (s : Nat)
    (hcode : code ≠ "")
    (hresp : env.codeResp code = .ok ⟨s, some (.obj rfs)⟩)
    (hs : raisesForStatus s = false)
    (hat : rfs.lookup "access_token" = some at2)
    (hei : jsonGetD rfs "expires_in" (.num 3600) = .num e)
    (he : 0 < e)
    (hlt : now2 < now + e) :
    get_token env ⟨.missing, cid⟩ now (some code) =
      (.ok at2,
       ⟨.found (.stored (.obj (rfs.insert "expires_at" (.num (now + e))))), cid⟩,
       [NetCall.tokenPost "authorization_code" (.str code)]) ∧
    get_token env
        ⟨.found (.stored (.obj (rfs.insert "expires_at" (.num (now + e))))), cid⟩
        now2 code2 =
      (.ok at2,
       ⟨.found (.stored (.obj (rfs.insert "expires_at" (.num (now + e))))), cid⟩,
       []) := by
  have hne : ("expires_at" : String) ≠ "access_token" := by decide
  have he2 : ¬ e ≤ 0 := by omega
  constructor
  · simp [get_token, load_token, get_token_miss, hcode, get_token_exchange,
      call_token_api, hresp, hs, cache_token_to_redis, hei, pyToInt,
      lookup_insert_ne rfs "expires_at" "access_token" _ hne, hat]
    rw [if_neg he2]
    simp [lookup_insert_ne rfs "expires_at" "access_token" _ hne, hat]
  · refine get_token_cached env cid now2 code2 _ at2 ⟨now + e, ?_, hlt⟩ ?_
    · simp [jsonGetD, lookup_insert_self, jsonAsNum]
    · rw [lookup_insert_ne rfs "expires_at" "access_token" _ hne]
      exact hat

/-- Witness for C3 at a concrete environment and code. -/
theorem c3_code_exchange_witness :
    c3_env.codeResp "authcode" = .ok ⟨200, some (.obj c3_resp_record)⟩ ∧
    get_token c3_env ⟨.missing, none⟩ 1000 (some "authcode") =
      (.ok (.str "tok3"),
       ⟨.found (.stored (.obj (c3_resp_record.insert "expires_at" (.num 4600)))), none⟩,
       [NetCall.tokenPost "authorization_code" (.str "authcode")]) ∧
    get_token c3_env
        ⟨.found (.stored (.obj (c3_resp_record.insert "expires_at" (.num 4600)))), none⟩
        2000 none =
      (.ok (.str "tok3"),
       ⟨.found (.stored (.obj (c3_resp_record.insert "expires_at" (.num 4600)))), none⟩,
       []) := by
  have h := c3_code_exchange_then_cache_hit c3_env none 1000 2000 "authcode"
    c3_resp_record (.str "tok3") 3600 none 200
    (by decide) rfl rfl rfl rfl (by decide) (by decide)
  exact ⟨rfl, h.1, h.2⟩

/-- C5 (counterexample): an issue PUT answered with HTTP 304 — a non-2xx
status — makes `update_ticket` return the boolean `false` instead of
propagating a failure, contradicting the claim that any non-2xx status
propagates a failure rather than returning a boolean. -/
theorem c5_counterexample :
    update_ticket c5_env warm_state 100 "PROJ-1" .null =
      (.ok false, warm_state, [NetCall.issueUpdate (.str "cloud1") "PROJ-1" .null]) ∧
    (304 < 200 ∨ 299 < 304) := by
  exact ⟨rfl, by omega⟩

/-- C5 (amended): `update_ticket` and `delete_ticket` return `true` exactly
when the underlying call yields status 204; they propagate a failure for any
4xx or 5xx status (the range `raise_for_status` raises on); any other
delivered status — including non-204 2xx and 3xx statuses such as 304 —
returns a boolean (`status == 204`) instead. -/
theorem c5_update_delete_204_semantics (env : Env) (fs : JFields) (cid at2 : Json)
    (now : Int) (tid : String) (data : Json) (su sd : Nat) (bu bd : Option Json)
    (hexp : ∃ n, jsonAsNum (jsonGetD fs "expires_at" (.num 0)) = some n ∧ now < n)
    (hat : fs.lookup "access_token" = some at2)
    (hu : env.updateResp tid data = .ok ⟨su, bu⟩)
    (hd : env.deleteResp tid = .ok ⟨sd, bd⟩) :
    (update_ticket env ⟨.found (.stored (.obj fs)), some cid⟩ now tid data =
        (.ok true, ⟨.found (.stored (.obj fs)), some cid⟩,
         [NetCall.issueUpdate cid tid data]) ↔ su = 204) ∧
    (raisesForStatus su = true →
      update_ticket env ⟨.found (.stored (.obj fs)), some cid⟩ now tid data =
        (.error ⟨.httpError "HTTPError", ["Failed to update Jira ticket"]⟩,
         ⟨.found (.stored (.obj fs)), some cid⟩, [NetCall.issueUpdate cid tid data])) ∧
    (raisesForStatus su = false →
      update_ticket env ⟨.found (.stored (.obj fs)), some cid⟩ now tid data =
        (.ok (decide (su = 204)), ⟨.found (.stored (.obj fs)), some cid⟩,
         [NetCall.issueUpdate cid tid data])) ∧
    (delete_ticket env ⟨.found (.stored (.obj fs)), some cid⟩ now tid =
        (.ok true, ⟨.found (.stored (.obj fs)), some cid⟩,
         [NetCall.issueDelete cid tid]) ↔ sd = 204) ∧
    (raisesForStatus sd = true →
      delete_ticket env ⟨.found (.stored (.obj fs)), some cid⟩ now tid =
        (.error ⟨.httpError "HTTPError", ["Failed to delete Jira ticket"]⟩,
         ⟨.found (.stored (.obj fs)), some cid⟩, [NetCall.issueDelete cid tid])) ∧
    (raisesForStatus sd = false →
      delete_ticket env ⟨.found (.stored (.obj fs)), some cid⟩ now tid =
        (.ok (decide (sd = 204)), ⟨.found (.stored (.obj fs)), some cid⟩,
         [NetCall.issueDelete cid tid])) := by
  have hpU := op_preamble_warm env fs cid at2 now "Failed to update Jira ticket" hexp hat
  have hpD := op_preamble_warm env fs cid at2 now "Failed to delete Jira ticket" hexp hat
  have keyU : ∀ b : Bool, raisesForStatus su = b →
      update_ticket env ⟨.found (.stored (.obj fs)), some cid⟩ now tid data =
        ((if b then .error ⟨.httpError "HTTPError", ["Failed to update Jira ticket"]⟩
          else .ok (decide (su = 204))),
         ⟨.found (.stored (.obj fs)), some cid⟩, [NetCall.issueUpdate cid tid data]) := by
    intro b hb
    cases b <;> simp [update_ticket, hpU, hu, hb]
  have keyD : ∀ b : Bool, raisesForStatus sd = b →
      delete_ticket env ⟨.found (.stored (.obj fs)), some cid⟩ now tid =
        ((if b then .error ⟨.httpError "HTTPError", ["Failed to delete Jira ticket"]⟩
          else .ok (decide (sd = 204))),
         ⟨.found (.stored (.obj fs)), some cid⟩, [NetCall.issueDelete cid tid]) := by
    intro b hb
    cases b <;> simp [delete_ticket, hpD, hd, hb]
  refine ⟨?_, keyU true, keyU false, ?_, keyD true, keyD false⟩
  · constructor
    · intro h
      cases hb : raisesForStatus su with
      | true => rw [keyU true hb] at h; simp at h
      | false =>
          rw [keyU false hb] at h
          simp only [Prod.mk.injEq] at h
          have := h.1
          simpa using this
    · intro h
      subst h
      have hb : raisesForStatus 204 = false := by decide
      rw [keyU false hb]
      simp
  · constructor
    · intro h
      cases hb : raisesForStatus sd with
      | true => rw [keyD true hb] at h; simp at h
      | false =>
          rw [keyD false hb] at h
          simp only [Prod.mk.injEq] at h
          have := h.1
          simpa using this
    · intro h
      subst h
      have hb : raisesForStatus 204 = false := by decide
      rw [keyD false hb]
      simp

/-- Witness for the amended C5: both operations on a 204-answering
environment return `true`. -/
theorem c5_update_delete_204_witness :
    update_ticket c5_ok_env warm_state 100 "PROJ-1" .null =
      (.ok true, warm_state, [NetCall.issueUpdate (.str "cloud1") "PROJ-1" .null]) ∧
    delete_ticket c5_ok_env warm_state 100 "PROJ-1" =
      (.ok true, warm_state, [NetCall.issueDelete (.str "cloud1") "PROJ-1"]) := by
  have h := c5_update_delete_204_semantics c5_ok_env valid_cache_record
    (.str "cloud1") (.str "tok") 100 "PROJ-1" .null 204 204 none none
    ⟨5000, rfl, by decide⟩ rfl rfl rfl
  exact ⟨h.1.mpr rfl, h.2.2.2.1.mpr rfl⟩

/-- C6: `list_tickets` with a project key and no explicit query sends exactly
the default query string `project=` + key (JQL-equivalent to
"project = key") and returns the `issues` value of the response body verbatim,
with the empty list — not `None` — when the response carries no `issues`
key. -/
theorem c6_list_tickets_default_query (env : Env) (fs : JFields) (cid at2 : Json)
    (now : Int) (key : String) (su : Nat) (bfs : JFields)
    (hexp : ∃ n, jsonAsNum (jsonGetD fs "expires_at" (.num 0)) = some n ∧ now < n)
    (hat : fs.lookup "access_token" = some at2)
    (hresp : env.searchResp ("project=" ++ key) = .ok ⟨su, some (.obj bfs)⟩)
    (hs : raisesForStatus su = false) :
    list_tickets env ⟨.found (.stored (.obj fs)), some cid⟩ now key none =
      (.ok (jsonGetD bfs "issues" (.arr .nil)),
       ⟨.found (.stored (.obj fs)), some cid⟩,
       [NetCall.issueSearch cid ("project=" ++ key)]) ∧
    (bfs.lookup "issues" = none →
      list_tickets env ⟨.found (.stored (.obj fs)), some cid⟩ now key none =
        (.ok (.arr .nil), ⟨.found (.stored (.obj fs)), some cid⟩,
         [NetCall.issueSearch cid ("project=" ++ key)])) := by
  have hp := op_preamble_warm env fs cid at2 now "Failed to list Jira tickets" hexp hat
  have h1 : list_tickets env ⟨.found (.stored (.obj fs)), some cid⟩ now key none =
      (.ok (jsonGetD bfs "issues" (.arr .nil)),
       ⟨.found (.stored (.obj fs)), some cid⟩,
       [NetCall.issueSearch cid ("project=" ++ key)]) := by
    simp [list_tickets, hp, hresp, hs]
  refine ⟨h1, fun h0 => ?_⟩
  rw [h1]
  simp [jsonGetD, h0]

/-- Witness for C6 at a concrete search environment. -/
theorem c6_list_tickets_witness :
    c6_env.searchResp "project=PROJ" =
      .ok ⟨200, some (.obj (.cons "issues" (.arr (.cons (.str "PROJ-1") .nil)) .nil))⟩ ∧
    list_tickets c6_env warm_state 100 "PROJ" none =
      (.ok (.arr (.cons (.str "PROJ-1") .nil)), warm_state,
       [NetCall.issueSearch (.str "cloud1") "project=PROJ"]) := by
  have h := c6_list_tickets_default_query c6_env valid_cache_record
    (.str "cloud1") (.str "tok") 100 "PROJ" 200
    (.cons "issues" (.arr (.cons (.str "PROJ-1") .nil)) .nil)
    ⟨5000, rfl, by decide⟩ rfl rfl rfl
  exact ⟨rfl, h.1⟩

/-- C9 (counterexample): with the cloud id unset and a malformed discovery
response whose first entry is a number, `create_ticket` fails — before any
REST call — with a TypeError from the membership test `"id" in resources[0]`
rather than with the configuration error ("Could not determine Jira
cloud_id.") that the claim states for every empty-or-malformed discovery
response. -/
theorem c9_counterexample :
    create_ticket c9_bad_env warm_state_no_cloud 100 .null =
      (.error ⟨.pyError "TypeError: argument of this type is not iterable",
        ["Failed to create Jira ticket"]⟩,
       warm_state_no_cloud, [NetCall.resourcesGet (.str "tok")]) ∧
    FailKind.pyError "TypeError: argument of this type is not iterable" ≠
      FailKind.noCloudId := by
  exact ⟨rfl, fun h => FailKind.noConfusion h⟩

/-- C9 (amended): for `create_ticket` with a valid cached token — (a) when
the cloud id is already set it is never overwritten and no discovery call is
made (the only network call is the issue POST); (b) when it is unset and the
discovery guard finds an id in the first entry, the cloud id is resolved to
that id before the REST call; (c) when it is unset and the guard evaluates
to false (empty response, non-list response, or first entry without an
`id`), the operation fails with the configuration error and performs no REST
call.  (A first entry on which the guard itself raises fails with a
TypeError instead, also before the REST call.) -/
theorem c9_cloud_id_resolution (env : Env) (fs : JFields) (at2 : Json)
    (now : Int) (data : Json)
    (hexp : ∃ n, jsonAsNum (jsonGetD fs "expires_at" (.num 0)) = some n ∧ now < n)
    (hat : fs.lookup "access_token" = some at2) :
    (∀ cid : Json, ∃ res : Except Failure Json,
        create_ticket env ⟨.found (.stored (.obj fs)), some cid⟩ now data =
          (res, ⟨.found (.stored (.obj fs)), some cid⟩,
           [NetCall.issueCreate cid data])) ∧
    (∀ s resources, env.resourcesResp at2 = .ok ⟨s, some resources⟩ →
      raisesForStatus s = false →
      (∀ idv, check_first_id resources = .ok (some idv) →
        ∃ res : Except Failure Json,
          create_ticket env ⟨.found (.stored (.obj fs)), none⟩ now data =
            (res, ⟨.found (.stored (.obj fs)), some idv⟩,
             [NetCall.resourcesGet at2, NetCall.issueCreate idv data])) ∧
      (check_first_id resources = .ok none →
        create_ticket env ⟨.found (.stored (.obj fs)), none⟩ now data =
          (.error ⟨.noCloudId, ["Failed to create Jira ticket"]⟩,
           ⟨.found (.stored (.obj fs)), none⟩,
           [NetCall.resourcesGet at2]))) := by
  have hg : ∀ cid : Option Json,
      get_token env ⟨.found (.stored (.obj fs)), cid⟩ now none =
        (.ok at2, ⟨.found (.stored (.obj fs)), cid⟩, []) :=
    fun cid => get_token_cached env cid now none fs at2 hexp hat
  have hrest : ∀ (st0 st1 : ClientState) (cid : Json) (pre : List NetCall),
      op_preamble env st0 now "Failed to create Jira ticket" =
        (.ok (at2, cid), st1, pre) →
      ∃ res : Except Failure Json,
        create_ticket env st0 now data =
          (res, st1, pre ++ [NetCall.issueCreate cid data]) := by
    intro st0 st1 cid pre hp
    cases hcr : env.createResp cid data with
    | error m =>
        exact ⟨.error ⟨.httpError m, ["Failed to create Jira ticket"]⟩,
          by simp [create_ticket, hp, hcr]⟩
    | ok r =>
        by_cases hrs : raisesForStatus r.status
        · exact ⟨.error ⟨.httpError "HTTPError", ["Failed to create Jira ticket"]⟩,
            by simp [create_ticket, hp, hcr, hrs]⟩
        · cases hrb : r.body with
          | none =>
              exact ⟨.error ⟨.httpError "JSONDecodeError", ["Failed to create Jira ticket"]⟩,
                by simp [create_ticket, hp, hcr, hrs, hrb]⟩
          | some j =>
              exact ⟨.ok j, by simp [create_ticket, hp, hcr, hrs, hrb]⟩
  constructor
  · intro cid
    have hp : op_preamble env ⟨.found (.stored (.obj fs)), some cid⟩ now
        "Failed to create Jira ticket" =
        (.ok (at2, cid), ⟨.found (.stored (.obj fs)), some cid⟩, []) :=
      op_preamble_warm env fs cid at2 now "Failed to create Jira ticket" hexp hat
    exact hrest ⟨.found (.stored (.obj fs)), some cid⟩
      ⟨.found (.stored (.obj fs)), some cid⟩ cid [] hp
  · intro s resources hres hs
    constructor
    · intro idv hchk
      have hp : op_preamble env ⟨.found (.stored (.obj fs)), none⟩ now
          "Failed to create Jira ticket" =
          (.ok (at2, idv), ⟨.found (.stored (.obj fs)), some idv⟩,
           [NetCall.resourcesGet at2]) := by
        simp [op_preamble, hg none, get_accessible_resources, hres, hs, hchk]
      exact hrest ⟨.found (.stored (.obj fs)), none⟩
        ⟨.found (.stored (.obj fs)), some idv⟩ idv
        [NetCall.resourcesGet at2] hp
    · intro hchk
      simp [create_ticket, op_preamble, hg none, get_accessible_resources,
        hres, hs, hchk]

/-- Witness for the amended C9: with a well-formed discovery response the
cloud id resolves to the id of the first entry and the issue POST is performed. -/
theorem c9_cloud_id_resolution_witness :
    check_first_id (.arr (.cons (.obj (.cons "id" (.str "cloud123") .nil)) .nil)) =
      .ok (some (.str "cloud123")) ∧
    ∃ res : Except Failure Json,
      create_ticket c9_good_env warm_state_no_cloud 100 .null =
        (res, ⟨.found (.stored (.obj valid_cache_record)), some (.str "cloud123")⟩,
         [NetCall.resourcesGet (.str "tok"),
          NetCall.issueCreate (.str "cloud123") .null]) := by
  have h := c9_cloud_id_resolution c9_good_env valid_cache_record (.str "tok")
    100 .null ⟨5000, rfl, by decide⟩ rfl
  exact ⟨rfl, (h.2 200
    (.arr (.cons (.obj (.cons "id" (.str "cloud123") .nil)) .nil)) rfl rfl).1
    (.str "cloud123") rfl⟩

/-! ## Characterization of the plain-text mention scan -/

/-- Uniqueness of the span decomposition: a prefix of characters satisfying
`p` followed by a suffix whose head fails `p` is exactly what `takeWhile` and
`dropWhile` recover. -/
theorem takeWhile_dropWhile_of_decomp {α} {p : α → Bool} :
    ∀ (h suf : List α), (∀ c ∈ h, p c = true) →
      (∀ c, suf.head? = some c → p c = false) →
      (h ++ suf).takeWhile p = h ∧ (h ++ suf).dropWhile p = suf
  | [], suf, _, hs => by
      cases suf with
      | nil => simp
      | cons s ss =>
          have h5 := hs s rfl
          simp [List.takeWhile_cons, List.dropWhile_cons, h5]
  | a :: h2, suf, hh, hs => by
      have ha := hh a (by simp)
      have ih := takeWhile_dropWhile_of_decomp h2 suf (fun c hc => hh c (by simp [hc])) hs
      simp [List.takeWhile_cons, List.dropWhile_cons, ha, ih.1, ih.2]

/-- `dropWhile` over an append whose separator element fails the predicate
stops no later than the separator. -/
theorem dropWhile_append_cons_of_neg {α} {p : α → Bool} {y : α} (hy : p y = false) :
    ∀ (xs ys : List α), (xs ++ y :: ys).dropWhile p = xs.dropWhile p ++ y :: ys
  | [], ys => by simp [List.dropWhile_cons, hy]
  | x :: xs, ys => by
      by_cases hx : p x = true
      · simp [List.dropWhile_cons, hx, dropWhile_append_cons_of_neg hy xs ys]
      · simp [List.dropWhile_cons, hx]

/-- A handle is produced by the scan exactly when it is a non-empty run of
handle characters occurring right after an `@` and maximal on the right. -/
theorem mem_findMentionsAux : ∀ (l h : List Char),
    h ∈ findMentionsAux l ↔
      (h ≠ [] ∧ (∀ c ∈ h, isHandleChar c = true) ∧
       ∃ pre suf, l = pre ++ '@' :: (h ++ suf) ∧
         ∀ c, suf.head? = some c → isHandleChar c = false)
  | [], h => by
      constructor
      · intro hm
        simp [findMentionsAux] at hm
      · rintro ⟨h1, h2, pre, suf, heq, hsuf⟩
        exact absurd heq (by simp)
  | c :: cs, h => by
      by_cases hc : c = '@'
      · subst hc
        cases ht : cs.takeWhile isHandleChar with
        | nil =>
            have hfm : findMentionsAux ('@' :: cs) = findMentionsAux cs := by
              simp [findMentionsAux, ht]
            rw [hfm, mem_findMentionsAux cs h]
            constructor
            · rintro ⟨h1, h2, pre, suf, heq, hsuf⟩
              exact ⟨h1, h2, '@' :: pre, suf, by rw [heq]; rfl, hsuf⟩
            · rintro ⟨h1, h2, pre, suf, heq, hsuf⟩
              cases pre with
              | nil =>
                  exfalso
                  injection heq with h3 h4
                  cases h with
                  | nil => exact h1 rfl
                  | cons a h5 =>
                      have ha : isHandleChar a = true := h2 a (by simp)
                      rw [h4] at ht
                      simp [List.takeWhile_cons, ha] at ht
              | cons p ps =>
                  injection heq with h3 h4
                  exact ⟨h1, h2, ps, suf, h4, hsuf⟩
        | cons a as2 =>
            have hdw : cs = (a :: as2) ++ cs.dropWhile isHandleChar := by
              conv_lhs => rw [← List.takeWhile_append_dropWhile isHandleChar cs]
              rw [ht]
            have hfm : findMentionsAux ('@' :: cs) =
                (a :: as2) :: findMentionsAux (cs.dropWhile isHandleChar) := by
              simp [findMentionsAux, ht]
            have hta : ∀ c2 ∈ a :: as2, isHandleChar c2 = true := by
              intro c2 hc2
              have h5 := List.all_takeWhile (l := cs) (p := isHandleChar)
              rw [ht] at h5
              exact (List.all_eq_true.mp h5) c2 hc2
            have hdh : ∀ c2, (cs.dropWhile isHandleChar).head? = some c2 →
                isHandleChar c2 = false := by
              intro c2 hc2
              have h5 := List.head?_dropWhile_not isHandleChar cs
              rw [hc2] at h5
              exact h5
            rw [hfm]
            simp only [List.mem_cons]
            rw [mem_findMentionsAux (cs.dropWhile isHandleChar) h]
            constructor
            · rintro (rfl | ⟨h1, h2, pre, suf, heq, hsuf⟩)
              · refine ⟨by simp, hta, [], cs.dropWhile isHandleChar, ?_, hdh⟩
                simp only [List.nil_append]
                rw [← hdw]
              · refine ⟨h1, h2, '@' :: ((a :: as2) ++ pre), suf, ?_, hsuf⟩
                rw [hdw, heq]
                simp [List.append_assoc]
            · rintro ⟨h1, h2, pre, suf, heq, hsuf⟩
              cases pre with
              | nil =>
                  left
                  injection heq with h3 h4
                  have hu := takeWhile_dropWhile_of_decomp h suf h2 hsuf
                  rw [← h4] at hu
                  rw [ht] at hu
                  exact hu.1.symm
              | cons p ps =>
                  right
                  injection heq with h3 h4
                  refine ⟨h1, h2, ps.dropWhile isHandleChar, suf, ?_, hsuf⟩
                  rw [h4]
                  exact dropWhile_append_cons_of_neg (by decide) ps (h ++ suf)
      · have hfm : findMentionsAux (c :: cs) = findMentionsAux cs := by
          simp [findMentionsAux, hc]
        rw [hfm, mem_findMentionsAux cs h]
        constructor
        · rintro ⟨h1, h2, pre, suf, heq, hsuf⟩
          exact ⟨h1, h2, c :: pre, suf, by rw [heq]; rfl, hsuf⟩
        · rintro ⟨h1, h2, pre, suf, heq, hsuf⟩
          cases pre with
          | nil =>
              exfalso
              injection heq with h3 h4
              exact hc h3
          | cons p ps =>
              injection heq with h3 h4
              exact ⟨h1, h2, ps, suf, h4, hsuf⟩
termination_by l h => l.length
decreasing_by
  · simp
  · simp only [List.length_cons]
    exact Nat.lt_succ_of_le (List.dropWhile_suffix isHandleChar).sublist.length_le
  · simp

/-- String-level version of the scan characterization, relative to the
spec-side occurrence predicate. -/
theorem mem_findMentions (s h : String) :
    h ∈ findMentions s ↔ spec_mention_occurrence s h := by
  unfold findMentions spec_mention_occurrence
  rw [List.mem_map]
  constructor
  · rintro ⟨l, hl, rfl⟩
    exact (mem_findMentionsAux s.data l).mp hl
  · rintro hocc
    exact ⟨h.data, (mem_findMentionsAux s.data h.data).mpr hocc, rfl⟩

/-- The comment loop over plain-text bodies yields exactly the union of each
scanned handles of each body. -/
theorem comment_loop_plain : ∀ (bodies : List String),
    comment_loop (JList.ofList (bodies.map mkComment)) =
      .ok (((bodies.flatMap findMentions).map Json.str).toFinset)
  | [] => by simp [comment_loop, JList.ofList, Pure.pure, Except.pure]
  | b :: rest => by
      have ih := comment_loop_plain rest
      simp [comment_loop, JList.ofList, mkComment, jsonGetD, JFields.lookup,
        body_mentions, ih, text_mentions, Bind.bind, Except.bind,
        Pure.pure, Except.pure, List.flatMap_cons,
        List.map_append, List.toFinset_append]

/-- C7: on an issue whose description and comment bodies are all plain text,
`extract_user_data` succeeds and its mentions value is the de-duplicated
unordered union, over the description and every comment body, of exactly the
captured handles of substrings matching `@` followed by one or more word
characters, dots, or hyphens (each handle a maximal such run, without the
leading `@`), every element being a handle string. -/
theorem c7_plain_text_mention_extraction (d : String) (bodies : List String) :
    extract_user_data (mkPlainTicket d bodies) =
      .ok ⟨.null, .null,
        ((findMentions d ++ bodies.flatMap findMentions).map Json.str).toFinset⟩ ∧
    (∀ h : String,
      Json.str h ∈ ((findMentions d ++ bodies.flatMap findMentions).map Json.str).toFinset ↔
        spec_mention_occurrence d h ∨ ∃ b ∈ bodies, spec_mention_occurrence b h) ∧
    (∀ j ∈ ((findMentions d ++ bodies.flatMap findMentions).map Json.str).toFinset,
      ∃ h : String, j = Json.str h) := by
  refine ⟨?_, ?_, ?_⟩
  · have h1 : extract_user_data_inner (mkPlainTicket d bodies) =
        Except.bind (comment_loop (JList.ofList (bodies.map mkComment)))
          (fun cm => .ok ⟨.null, .null, text_mentions d ∪ cm⟩) := rfl
    unfold extract_user_data
    rw [h1, comment_loop_plain bodies]
    simp [Except.bind, text_mentions, List.map_append, List.toFinset_append]
  · intro h
    rw [List.mem_toFinset, List.mem_map]
    constructor
    · rintro ⟨a, ha, heq⟩
      have h7 : a = h := by injection heq
      rw [h7] at ha
      rw [List.mem_append] at ha
      rcases ha with ha | ha
      · exact Or.inl ((mem_findMentions d h).mp ha)
      · rw [List.mem_flatMap] at ha
        obtain ⟨b, hb, hab⟩ := ha
        exact Or.inr ⟨b, hb, (mem_findMentions b h).mp hab⟩
    · rintro (hs | ⟨b, hb, hs⟩)
      · exact ⟨h, List.mem_append.mpr (Or.inl ((mem_findMentions d h).mpr hs)), rfl⟩
      · exact ⟨h, List.mem_append.mpr
          (Or.inr (List.mem_flatMap.mpr ⟨b, hb, (mem_findMentions b h).mpr hs⟩)), rfl⟩
  · intro j hj
    rw [List.mem_toFinset, List.mem_map] at hj
    obtain ⟨a, _, rfl⟩ := hj
    exact ⟨a, rfl⟩

/-- Witness for C7 on the concrete test-suite payload: `john.doe` is a
spec-side mention occurrence of the description, hence its string is in the
extracted mention set, and that member is a handle string. -/
theorem c7_plain_text_mention_witness :
    spec_mention_occurrence "Hello @john.doe, please review." "john.doe" ∧
    Json.str "john.doe" ∈
      ((findMentions "Hello @john.doe, please review." ++
        (["Thanks @jane.smith!"]).flatMap findMentions).map Json.str).toFinset ∧
    ∃ h2 : String, (Json.str "john.doe" : Json) = Json.str h2 := by
  have hc7 := c7_plain_text_mention_extraction "Hello @john.doe, please review."
    ["Thanks @jane.smith!"]
  have hocc : spec_mention_occurrence "Hello @john.doe, please review." "john.doe" :=
    ⟨by decide, by decide, "Hello ".data, ", please review.".data, by decide, by decide⟩
  have hmem := (hc7.2.1 "john.doe").mpr (Or.inl hocc)
  exact ⟨hocc, hmem, hc7.2.2 _ hmem⟩

end Jira
